import Mathlib

/-!
Verification development for the CRC system storage layer (data.js).

The layer keeps five pieces of state: the users, projects and leads
collections, the defaults singleton, and the per-tab session.  Each
operation of the CRCData object reads the collections, computes, and
writes them back.  We embed that state as a `Store` record and each
operation as a pure function `Store → args → Store × result`.

Nondeterministic inputs of the source (Math.random based ids, Date
based timestamps) are passed in as explicit string arguments.
JavaScript falsy-coercions (`x || d`) and null-coalescing (`x ?? d`)
are embedded explicitly on `Option` valued fields.  Numbers appearing
in the data (budget, plot, timeline, commissionPercent) are embedded
as `Int`; the claims never exercise non-integral arithmetic.
-/

namespace CRC

/-- ASCII lowercasing of one character, modelling the JavaScript
`toLowerCase` on the character range the application uses. -/
def lowerChar (c : Char) : Char :=
  if 65 ≤ c.toNat ∧ c.toNat ≤ 90 then Char.ofNat (c.toNat + 32) else c

/-- ASCII lowercasing of a string, modelling `email.toLowerCase()`. -/
def jsLower (s : String) : String := String.mk (s.data.map lowerChar)

/-- JavaScript `x || d` for an optional string: `undefined`, `null` and
the empty string are falsy and give the default. -/
def jsOrStr (x : Option String) (d : String) : String :=
  match x with
  | none => d
  | some s => if s = "" then d else s

/-- JavaScript `x || d` for an optional number: `undefined`, `null` and
`0` are falsy and give the default. -/
def jsOrInt (x : Option Int) (d : Int) : Int :=
  match x with
  | none => d
  | some v => if v = 0 then d else v

/-- JavaScript `x || null` for an optional string (used for the
`referrerId` field of a project payload). -/
def jsOrNull (x : Option String) : Option String :=
  match x with
  | none => none
  | some s => if s = "" then none else some s

/-- The `read(k, fallback)` helper of data.js:
`try { return JSON.parse(localStorage.getItem(k) || JSON.stringify(fallback)) } catch(e) { return fallback }`.
`stored` is the raw text under the key (`none` when absent), `parse`
is the deserializer (`none` on parse failure) and `stringify` the
serializer.  Totality is by construction: every branch returns a value. -/
def read {V : Type} (stored : Option String) (parse : String → Option V)
    (stringify : V → String) (fallback : V) : V :=
  match parse (jsOrStr stored (stringify fallback)) with
  | some v => v
  | none => fallback

/-- A registered user record, as built by registerUser / registerOrGetUserByEmail. -/
structure User where
  id : String
  email : String
  name : String
  role : String
  createdAt : String
  deriving Repr, DecidableEq

/-- One construction stage of a project. -/
structure Stage where
  key : String
  label : String
  done : Bool
  deriving Repr, DecidableEq

/-- A referral lead, as built by addLead. -/
structure Lead where
  id : String
  referrerId : Option String
  email : String
  notes : String
  status : String
  createdAt : String
  convertedProjectId : Option String
  deriving Repr, DecidableEq

/-- A construction project, as built by addProject. -/
structure Project where
  id : String
  customerId : String
  createdAt : String
  location : String
  plot : Int
  budget : Int
  materials : String
  timeline : Int
  status : String
  verified : Bool
  assignedContractor : Option String
  referrerId : Option String
  commissionPercent : Int
  stages : List Stage
  deriving Repr, DecidableEq

/-- The defaults singleton record. -/
structure Defaults where
  defaultCommission : Int
  deriving Repr, DecidableEq

/-- The whole persisted state plus the per-tab session slot. -/
structure Store where
  users : List User
  projects : List Project
  leads : List Lead
  defaults : Defaults
  session : Option User
  deriving Repr, DecidableEq

deriving instance DecidableEq for Except

/-- The state right after loading data.js on a fresh origin: all
collections empty, the init block has written `{ defaultCommission: 6 }`,
and no session. -/
def initStore : Store :=
  { users := [], projects := [], leads := [],
    defaults := { defaultCommission := 6 }, session := none }

/-- Payload argument of addProject; every field may be absent. -/
structure Payload where
  location : Option String := none
  plot : Option Int := none
  budget : Option Int := none
  materials : Option String := none
  timeline : Option Int := none
  referrerId : Option String := none
  commissionPercent : Option Int := none
  deriving Repr, DecidableEq

/-- Partial-update argument of updateProject; `Object.assign(p, changes)`
overwrites exactly the fields present in `changes` (shallow merge). -/
structure Changes where
  id : Option String := none
  customerId : Option String := none
  createdAt : Option String := none
  location : Option String := none
  plot : Option Int := none
  budget : Option Int := none
  materials : Option String := none
  timeline : Option Int := none
  status : Option String := none
  verified : Option Bool := none
  assignedContractor : Option (Option String) := none
  referrerId : Option (Option String) := none
  commissionPercent : Option Int := none
  stages : Option (List Stage) := none
  deriving Repr, DecidableEq

/-- Shallow merge of a changes record into a project, as
`Object.assign(p, changes)` does. -/
def applyChanges (p : Project) (c : Changes) : Project :=
  { id := c.id.getD p.id
    customerId := c.customerId.getD p.customerId
    createdAt := c.createdAt.getD p.createdAt
    location := c.location.getD p.location
    plot := c.plot.getD p.plot
    budget := c.budget.getD p.budget
    materials := c.materials.getD p.materials
    timeline := c.timeline.getD p.timeline
    status := c.status.getD p.status
    verified := c.verified.getD p.verified
    assignedContractor := c.assignedContractor.getD p.assignedContractor
    referrerId := c.referrerId.getD p.referrerId
    commissionPercent := c.commissionPercent.getD p.commissionPercent
    stages := c.stages.getD p.stages }

/-- Whether every stage of a project is done (`p.stages.every(s => s.done)`). -/
def stagesAllDone (p : Project) : Bool := p.stages.all (fun s => s.done)

/-- The completion re-evaluation both updateProject and toggleStage run:
`if (p.stages.every(s => s.done)) p.status = 'completed'`. -/
def recompute (p : Project) : Project :=
  if stagesAllDone p then { p with status := "completed" } else p

/-- In-place update of the first element satisfying the predicate, the
way mutating the object returned by `Array.prototype.find` updates the
array element in place. -/
def updateFirst {α : Type} (l : List α) (pred : α → Bool) (f : α → α) : List α :=
  match l with
  | [] => []
  | x :: xs => if pred x then f x :: xs else x :: updateFirst xs pred f

/-- registerUser({email, name, role}): validation check, case-insensitive
duplicate check, then append the new user. `id` and `ts` stand for the
fresh `uid('u_')` and `now()` values. Missing email or name is embedded
as the empty string, which is exactly what `!email` rejects. -/
def registerUser (st : Store) (email name role : String) (id ts : String) :
    Store × Except String User :=
  if email = "" ∨ name = "" then (st, Except.error "Name and email required")
  else if st.users.any (fun u => jsLower u.email = jsLower email) then
    (st, Except.error "Email already registered")
  else
    let u : User := { id := id, email := jsLower email, name := name, role := role, createdAt := ts }
    ({ st with users := st.users ++ [u] }, Except.ok u)

/-- loginUser(email): look up the first user matching case-insensitively
and put it into the session slot. -/
def loginUser (st : Store) (email : String) : Store × Except String User :=
  match st.users.find? (fun u => jsLower u.email = jsLower email) with
  | none => (st, Except.error "User not found. Register first.")
  | some u => ({ st with session := some u }, Except.ok u)

/-- registerOrGetUserByEmail(email, name, role): idempotent upsert. -/
def registerOrGetUserByEmail (st : Store) (email name role : String) (id ts : String) :
    Store × User :=
  match st.users.find? (fun u => jsLower u.email = jsLower email) with
  | some u => (st, u)
  | none =>
    let u : User := { id := id, email := jsLower email, name := name, role := role, createdAt := ts }
    ({ st with users := st.users ++ [u] }, u)

/-- addLead(referrerId, email, notes): prepend a fresh lead with status new. -/
def addLead (st : Store) (referrerId : Option String) (email notes : String) (id ts : String) :
    Store × Lead :=
  let lead : Lead := { id := id, referrerId := referrerId, email := jsLower email,
                       notes := notes, status := "new", createdAt := ts,
                       convertedProjectId := none }
  ({ st with leads := lead :: st.leads }, lead)

/-- The fixed four-stage sequence attached at project creation. -/
def freshStages : List Stage :=
  [ { key := "foundation", label := "Foundation", done := false },
    { key := "framing", label := "Framing", done := false },
    { key := "roof", label := "Roof", done := false },
    { key := "finishing", label := "Finishing", done := false } ]

/-- addProject(customerId, payload): apply the field defaults and prepend
the new project.  Falsy fields fall back with `||`; commissionPercent
uses `??` against the current defaults record. -/
def addProject (st : Store) (customerId : String) (payload : Payload) (id ts : String) :
    Store × Project :=
  let defaults := st.defaults
  let p : Project :=
    { id := id
      customerId := customerId
      createdAt := ts
      location := jsOrStr payload.location "—"
      plot := jsOrInt payload.plot 0
      budget := jsOrInt payload.budget 0
      materials := jsOrStr payload.materials "Standard"
      timeline := jsOrInt payload.timeline 12
      status := "pending"
      verified := false
      assignedContractor := none
      referrerId := jsOrNull payload.referrerId
      commissionPercent := payload.commissionPercent.getD defaults.defaultCommission
      stages := freshStages }
  ({ st with projects := p :: st.projects }, p)

/-- The effect of updateProject on the found project: shallow merge then
completion re-evaluation. -/
def mergeProj (c : Changes) (x : Project) : Project := recompute (applyChanges x c)

/-- updateProject(projectId, changes): null when the project is absent,
otherwise shallow-merge, re-evaluate completion, write back. -/
def updateProject (st : Store) (projectId : String) (c : Changes) :
    Store × Option Project :=
  match st.projects.find? (fun x => x.id = projectId) with
  | none => (st, none)
  | some p =>
    ({ st with projects := updateFirst st.projects (fun x => x.id = projectId) (mergeProj c) },
     some (mergeProj c p))

/-- The mutation `s.done = !s.done` on one stage record. -/
def flipStage (s : Stage) : Stage := { s with done := !s.done }

/-- Flip the done flag of the first stage whose key matches, if any
(`const s = p.stages.find(st => st.key === stageKey); if (s) s.done = !s.done`). -/
def toggleStageInList (stages : List Stage) (stageKey : String) : List Stage :=
  updateFirst stages (fun s => s.key = stageKey) flipStage

/-- The effect of toggleStage on the found project: flip the first
matching stage, then re-evaluate completion. -/
def toggleProj (stageKey : String) (x : Project) : Project :=
  recompute { x with stages := toggleStageInList x.stages stageKey }

/-- toggleStage(projectId, stageKey): null when the project is absent;
otherwise flip the first matching stage (flipping nothing when no stage
matches), re-evaluate completion, write back, and return the project. -/
def toggleStage (st : Store) (projectId stageKey : String) :
    Store × Option Project :=
  match st.projects.find? (fun x => x.id = projectId) with
  | none => (st, none)
  | some p =>
    ({ st with projects := updateFirst st.projects (fun x => x.id = projectId) (toggleProj stageKey) },
     some (toggleProj stageKey p))

/-- The mutation convertLeadToProject performs on the found lead. -/
def markConverted (projectId : String) (l : Lead) : Lead :=
  { l with status := "converted", convertedProjectId := some projectId }

/-- convertLeadToProject(leadId, customerName, budget): resolve or
create the customer from the lead email, create the project carrying
the lead referrerId through the payload, mark the lead converted.
`uidNew`, `pidNew` and `ts` stand for the fresh ids and timestamp. -/
def convertLeadToProject (st : Store) (leadId customerName : String) (budget : Option Int)
    (uidNew pidNew ts : String) : Store × Except String Project :=
  match st.leads.find? (fun l => l.id = leadId) with
  | none => (st, Except.error "Lead not found")
  | some lead =>
    let r1 := registerOrGetUserByEmail st lead.email customerName "customer" uidNew ts
    let st1 := r1.1
    let cust := r1.2
    let payload : Payload :=
      { location := some "(from lead)", budget := budget, materials := some "TBD",
        timeline := some 12, referrerId := lead.referrerId }
    let r2 := addProject st1 cust.id payload pidNew ts
    let st2 := r2.1
    let project := r2.2
    let leads2 := updateFirst st2.leads (fun l => l.id = leadId) (markConverted project.id)
    ({ st2 with leads := leads2 }, Except.ok project)

/-- writeDefaults(obj): unconditional overwrite of the defaults singleton. -/
def writeDefaults (st : Store) (obj : Defaults) : Store :=
  { st with defaults := obj }

/-- seedDemo(): no-op when users is non-empty; otherwise overwrite the
users, leads and projects collections with the demo data.  The five
fresh ids and the timestamp are explicit arguments. -/
def seedDemo (st : Store) (id1 id2 id3 id4 id5 ts : String) : Store :=
  if st.users ≠ [] then st
  else
    let u1 : User := { id := id1, email := "alice@ref.com", name := "Alice Referrer", role := "referrer", createdAt := ts }
    let u2 : User := { id := id2, email := "bob@admin.com", name := "Bob Admin", role := "admin", createdAt := ts }
    let u3 : User := { id := id3, email := "carl@cust.com", name := "Carl Customer", role := "customer", createdAt := ts }
    let l1 : Lead := { id := id4, referrerId := some u1.id, email := "lead1@example.com",
                       notes := "Interested in 3BHK", status := "new", createdAt := ts,
                       convertedProjectId := none }
    let p1 : Project :=
      { id := id5, customerId := u3.id, createdAt := ts, location := "Greenhill Estate",
        plot := 120, budget := 42000, materials := "Premium", timeline := 16,
        status := "pending", verified := false, assignedContractor := none,
        referrerId := some u1.id, commissionPercent := 7,
        stages := [ { key := "foundation", label := "Foundation", done := true },
                    { key := "framing", label := "Framing", done := false },
                    { key := "roof", label := "Roof", done := false },
                    { key := "finishing", label := "Finishing", done := false } ] }
    { st with users := [u1, u2, u3], leads := [l1], projects := [p1] }

/-- States reachable from the fresh store through the exposed mutating
operations named by the completion-invariant claim. -/
inductive Reachable : Store → Prop where
  | init : Reachable initStore
  | stepAddProject (st : Store) (cid : String) (payload : Payload) (id ts : String) :
      Reachable st → Reachable (addProject st cid payload id ts).1
  | stepUpdateProject (st : Store) (pid : String) (c : Changes) :
      Reachable st → Reachable (updateProject st pid c).1
  | stepToggleStage (st : Store) (pid key : String) :
      Reachable st → Reachable (toggleStage st pid key).1
  | stepConvertLead (st : Store) (leadId customerName : String) (budget : Option Int)
      (uidNew pidNew ts : String) :
      Reachable st → Reachable (convertLeadToProject st leadId customerName budget uidNew pidNew ts).1
  | stepSeedDemo (st : Store) (id1 id2 id3 id4 id5 ts : String) :
      Reachable st → Reachable (seedDemo st id1 id2 id3 id4 id5 ts)

/-- Characters in the lowered band are fixed by Char.ofNat round-trips. -/
lemma toNat_ofNat_low (n : Nat) (h1 : 97 ≤ n) (h2 : n ≤ 122) : (Char.ofNat n).toNat = n := by
  interval_cases n <;> decide

/-- ASCII lowercasing of one character is idempotent. -/
lemma lowerChar_idem (c : Char) : lowerChar (lowerChar c) = lowerChar c := by
  by_cases h : 65 ≤ c.toNat ∧ c.toNat ≤ 90
  · have h1 : lowerChar c = Char.ofNat (c.toNat + 32) := by unfold lowerChar; exact if_pos h
    rw [h1]
    unfold lowerChar
    rw [toNat_ofNat_low (c.toNat + 32) (by omega) (by omega)]
    rw [if_neg (by omega)]
  · have h1 : lowerChar c = c := by unfold lowerChar; exact if_neg h
    rw [h1, h1]

lemma map_lowerChar_idem (l : List Char) : (l.map lowerChar).map lowerChar = l.map lowerChar := by
  induction l with
  | nil => rfl
  | cons c cs ih => simp only [List.map_cons, lowerChar_idem, ih]

/-- ASCII lowercasing of a string is idempotent. -/
lemma jsLower_idem (s : String) : jsLower (jsLower s) = jsLower s := by
  show String.mk ((s.data.map lowerChar).map lowerChar) = String.mk (s.data.map lowerChar)
  rw [map_lowerChar_idem]

/-- Every element of the updated list is an old element or the image of one. -/
lemma mem_updateFirst {α : Type} {l : List α} {pred : α → Bool} {f : α → α} {y : α}
    (h : y ∈ updateFirst l pred f) : y ∈ l ∨ ∃ x, x ∈ l ∧ y = f x := by
  induction l with
  | nil => simp [updateFirst] at h
  | cons a as ih =>
    unfold updateFirst at h
    cases hpa : pred a with
    | true =>
      rw [hpa] at h
      simp only [if_true] at h
      rcases List.mem_cons.mp h with h | h
      · exact Or.inr ⟨a, List.mem_cons_self a as, h⟩
      · exact Or.inl (List.mem_cons_of_mem a h)
    | false =>
      rw [hpa] at h
      simp only [Bool.false_eq_true, if_false] at h
      rcases List.mem_cons.mp h with h | h
      · exact Or.inl (h ▸ List.mem_cons_self a as)
      · rcases ih h with h1 | ⟨x, hx, hy⟩
        · exact Or.inl (List.mem_cons_of_mem a h1)
        · exact Or.inr ⟨x, List.mem_cons_of_mem a hx, hy⟩

/-- Updating the first match leaves the list unchanged when nothing matches. -/
lemma updateFirst_of_find?_none {α : Type} {l : List α} {pred : α → Bool} {f : α → α}
    (h : l.find? pred = none) : updateFirst l pred f = l := by
  induction l with
  | nil => rfl
  | cons a as ih =>
    rw [List.find?_cons] at h
    cases hpa : pred a with
    | true => rw [hpa] at h; simp at h
    | false =>
      rw [hpa] at h
      unfold updateFirst
      rw [hpa]
      simp only [Bool.false_eq_true, if_false]
      rw [ih h]

/-- Finding again after updating the first match returns the updated element,
provided the update preserves the predicate. -/
lemma find?_updateFirst {α : Type} {l : List α} {pred : α → Bool} {f : α → α} {x : α}
    (h : l.find? pred = some x) (hf : pred (f x) = true) :
    (updateFirst l pred f).find? pred = some (f x) := by
  induction l with
  | nil => simp [List.find?] at h
  | cons a as ih =>
    rw [List.find?_cons] at h
    cases hpa : pred a with
    | true =>
      rw [hpa] at h
      simp only [Option.some.injEq] at h
      subst h
      unfold updateFirst
      rw [hpa]
      simp only [if_true]
      rw [List.find?_cons, hf]
    | false =>
      rw [hpa] at h
      unfold updateFirst
      rw [hpa]
      simp only [Bool.false_eq_true, if_false]
      rw [List.find?_cons, hpa]
      exact ih h

/-- Updating the first match in a split list with no earlier match rewrites
exactly the matching element. -/
lemma updateFirst_append_cons {α : Type} (l1 : List α) (s : α) (l2 : List α)
    (pred : α → Bool) (f : α → α)
    (h1 : ∀ x ∈ l1, pred x = false) (hs : pred s = true) :
    updateFirst (l1 ++ s :: l2) pred f = l1 ++ f s :: l2 := by
  induction l1 with
  | nil =>
    rw [List.nil_append, List.nil_append]
    simp only [updateFirst]
    rw [hs]
    simp
  | cons a as ih =>
    rw [List.cons_append, List.cons_append]
    simp only [updateFirst]
    have ha : pred a = false := h1 a (List.mem_cons_self a as)
    rw [ha]
    simp only [Bool.false_eq_true, if_false]
    rw [ih (fun x hx => h1 x (List.mem_cons_of_mem a hx))]

lemma recompute_id (p : Project) : (recompute p).id = p.id := by
  unfold recompute; split <;> rfl

lemma recompute_stages (p : Project) : (recompute p).stages = p.stages := by
  unfold recompute; split <;> rfl

lemma toggleProj_id (key : String) (x : Project) : (toggleProj key x).id = x.id := by
  unfold toggleProj; rw [recompute_id]

lemma toggleProj_stages (key : String) (x : Project) :
    (toggleProj key x).stages = toggleStageInList x.stages key := by
  unfold toggleProj; rw [recompute_stages]

lemma flipStage_key (s : Stage) : (flipStage s).key = s.key := rfl

lemma flipStage_flipStage (s : Stage) : flipStage (flipStage s) = s := by
  cases s; simp [flipStage]

/-- Shape of the store toggleStage writes when the project is found. -/
lemma toggleStage_found {st : Store} {pid : String} (key : String) {p : Project}
    (h : st.projects.find? (fun x => x.id = pid) = some p) :
    (toggleStage st pid key).1.projects =
      updateFirst st.projects (fun x => x.id = pid) (toggleProj key) := by
  simp [toggleStage, h]

/-- Re-evaluating completion establishes the forward completion property. -/
lemma recompute_completionOk (p : Project) :
    stagesAllDone (recompute p) = true → (recompute p).status = "completed" := by
  unfold recompute
  by_cases h : stagesAllDone p = true
  · rw [if_pos h]; intro _; rfl
  · rw [if_neg h]; intro hh; exact absurd hh h

/-- Forward completion invariant of a store: every stored project that has
all stages done carries the completed status. -/
def storeCompletionOk (st : Store) : Prop :=
  ∀ p ∈ st.projects, stagesAllDone p = true → p.status = "completed"

lemma freshStages_not_all_done :
    ({ id := "", customerId := "", createdAt := "", location := "", plot := 0, budget := 0,
       materials := "", timeline := 0, status := "", verified := false,
       assignedContractor := none, referrerId := none, commissionPercent := 0,
       stages := freshStages } : Project).stages.all (fun s => s.done) = false := by
  decide

lemma addProject_completionOk {st : Store} (cid : String) (payload : Payload) (id ts : String)
    (h : storeCompletionOk st) : storeCompletionOk (addProject st cid payload id ts).1 := by
  intro p hp
  have hp' : p = (addProject st cid payload id ts).2 ∨ p ∈ st.projects := by
    simpa [addProject] using hp
  rcases hp' with hp' | hp'
  · subst hp'
    intro hh
    have : stagesAllDone (addProject st cid payload id ts).2 = false := by
      simp [addProject, stagesAllDone, freshStages]
    rw [this] at hh
    exact absurd hh (by simp)
  · exact h p hp'

lemma registerOrGet_projects (st : Store) (email name role id ts : String) :
    (registerOrGetUserByEmail st email name role id ts).1.projects = st.projects := by
  unfold registerOrGetUserByEmail
  cases st.users.find? (fun u => jsLower u.email = jsLower email) <;> rfl

lemma registerOrGet_leads (st : Store) (email name role id ts : String) :
    (registerOrGetUserByEmail st email name role id ts).1.leads = st.leads := by
  unfold registerOrGetUserByEmail
  cases st.users.find? (fun u => jsLower u.email = jsLower email) <;> rfl

lemma registerOrGet_defaults (st : Store) (email name role id ts : String) :
    (registerOrGetUserByEmail st email name role id ts).1.defaults = st.defaults := by
  unfold registerOrGetUserByEmail
  cases st.users.find? (fun u => jsLower u.email = jsLower email) <;> rfl

lemma updateProject_completionOk {st : Store} (pid : String) (c : Changes)
    (h : storeCompletionOk st) : storeCompletionOk (updateProject st pid c).1 := by
  cases hf : st.projects.find? (fun x => x.id = pid) with
  | none =>
    have he : (updateProject st pid c).1 = st := by simp [updateProject, hf]
    rw [he]; exact h
  | some p =>
    have he : (updateProject st pid c).1.projects =
        updateFirst st.projects (fun x => x.id = pid) (mergeProj c) := by
      simp [updateProject, hf]
    intro q hq
    rw [he] at hq
    rcases mem_updateFirst hq with h1 | ⟨x, _, hy⟩
    · exact h q h1
    · subst hy; exact recompute_completionOk _

lemma toggleStage_completionOk {st : Store} (pid key : String)
    (h : storeCompletionOk st) : storeCompletionOk (toggleStage st pid key).1 := by
  cases hf : st.projects.find? (fun x => x.id = pid) with
  | none =>
    have he : (toggleStage st pid key).1 = st := by simp [toggleStage, hf]
    rw [he]; exact h
  | some p =>
    have he : (toggleStage st pid key).1.projects =
        updateFirst st.projects (fun x => x.id = pid) (toggleProj key) := by
      simp [toggleStage, hf]
    intro q hq
    rw [he] at hq
    rcases mem_updateFirst hq with h1 | ⟨x, _, hy⟩
    · exact h q h1
    · subst hy; exact recompute_completionOk _

lemma convertLead_completionOk {st : Store} (leadId customerName : String) (budget : Option Int)
    (uidNew pidNew ts : String) (h : storeCompletionOk st) :
    storeCompletionOk (convertLeadToProject st leadId customerName budget uidNew pidNew ts).1 := by
  cases hf : st.leads.find? (fun l => l.id = leadId) with
  | none =>
    have he : (convertLeadToProject st leadId customerName budget uidNew pidNew ts).1 = st := by
      simp [convertLeadToProject, hf]
    rw [he]; exact h
  | some lead =>
    have h1 : storeCompletionOk (registerOrGetUserByEmail st lead.email customerName "customer" uidNew ts).1 := by
      intro q hq
      rw [registerOrGet_projects] at hq
      exact h q hq
    have h2 := addProject_completionOk
      ((registerOrGetUserByEmail st lead.email customerName "customer" uidNew ts).2.id)
      { location := some "(from lead)", budget := budget, materials := some "TBD",
        timeline := some 12, referrerId := lead.referrerId } pidNew ts h1
    intro q hq
    have he : (convertLeadToProject st leadId customerName budget uidNew pidNew ts).1.projects =
        (addProject (registerOrGetUserByEmail st lead.email customerName "customer" uidNew ts).1
          (registerOrGetUserByEmail st lead.email customerName "customer" uidNew ts).2.id
          { location := some "(from lead)", budget := budget, materials := some "TBD",
            timeline := some 12, referrerId := lead.referrerId } pidNew ts).1.projects := by
      simp [convertLeadToProject, hf]
    rw [he] at hq
    exact h2 q hq

lemma seedDemo_completionOk {st : Store} (id1 id2 id3 id4 id5 ts : String)
    (h : storeCompletionOk st) : storeCompletionOk (seedDemo st id1 id2 id3 id4 id5 ts) := by
  unfold seedDemo
  by_cases hu : st.users ≠ []
  · rw [if_pos hu]; exact h
  · rw [if_neg hu]
    intro p hp
    simp only [List.mem_singleton] at hp
    subst hp
    intro hh
    simp [stagesAllDone] at hh

/-- C1, amended: at every store reachable through the exposed operations
(addProject, updateProject, toggleStage, convertLeadToProject, seedDemo),
every stored project whose stages are all done has status completed.  The
converse direction of the claimed biconditional does not hold on the code:
updateProject can assign the completed status directly, and toggleStage
never clears it when a stage is un-done. -/
theorem reachable_completion_forward (st : Store) (h : Reachable st) :
    ∀ p ∈ st.projects, stagesAllDone p = true → p.status = "completed" := by
  induction h with
  | init => intro p hp _; simp [initStore] at hp
  | stepAddProject st cid payload id ts _ ih => exact addProject_completionOk cid payload id ts ih
  | stepUpdateProject st pid c _ ih => exact updateProject_completionOk pid c ih
  | stepToggleStage st pid key _ ih => exact toggleStage_completionOk pid key ih
  | stepConvertLead st leadId customerName budget uidNew pidNew ts _ ih =>
    exact convertLead_completionOk leadId customerName budget uidNew pidNew ts ih
  | stepSeedDemo st id1 id2 id3 id4 id5 ts _ ih => exact seedDemo_completionOk id1 id2 id3 id4 id5 ts ih

def c1wStore : Store :=
  (toggleStage (toggleStage (toggleStage (toggleStage
    (addProject initStore "c" {} "p1" "t").1 "p1" "foundation").1 "p1" "framing").1
      "p1" "roof").1 "p1" "finishing").1

def c1wProj : Project :=
  { id := "p1", customerId := "c", createdAt := "t", location := "—", plot := 0, budget := 0,
    materials := "Standard", timeline := 12, status := "completed", verified := false,
    assignedContractor := none, referrerId := none, commissionPercent := 6,
    stages := [ { key := "foundation", label := "Foundation", done := true },
                { key := "framing", label := "Framing", done := true },
                { key := "roof", label := "Roof", done := true },
                { key := "finishing", label := "Finishing", done := true } ] }

lemma c1wStore_reachable : Reachable c1wStore :=
  Reachable.stepToggleStage _ "p1" "finishing"
    (Reachable.stepToggleStage _ "p1" "roof"
      (Reachable.stepToggleStage _ "p1" "framing"
        (Reachable.stepToggleStage _ "p1" "foundation"
          (Reachable.stepAddProject initStore "c" {} "p1" "t" Reachable.init))))

/-- C1 witness: a concrete reachable store whose single project has all
stages done, at which the forward completion theorem applies. -/
theorem reachable_completion_forward_witness : c1wProj.status = "completed" :=
  reachable_completion_forward c1wStore c1wStore_reachable c1wProj (by decide) (by decide)

def c1cexStore : Store :=
  (updateProject (addProject initStore "c" {} "p1" "t").1 "p1" { status := some "completed" }).1

def c1cexProj : Project :=
  { id := "p1", customerId := "c", createdAt := "t", location := "—", plot := 0, budget := 0,
    materials := "Standard", timeline := 12, status := "completed", verified := false,
    assignedContractor := none, referrerId := none, commissionPercent := 6,
    stages := freshStages }

/-- C1 counterexample: an updateProject call that assigns the completed
status directly yields a reachable store holding a project for which the
claimed biconditional fails (status completed, stages not all done). -/
theorem reachable_completion_biconditional_cex :
    Reachable c1cexStore ∧
    c1cexStore.projects = [c1cexProj] ∧
    ¬ (stagesAllDone c1cexProj = true ↔ c1cexProj.status = "completed") := by
  refine ⟨?_, by decide, by decide⟩
  exact Reachable.stepUpdateProject _ "p1" { status := some "completed" }
    (Reachable.stepAddProject initStore "c" {} "p1" "t" Reachable.init)

/-- C2, amended: toggleStage returns null and leaves the store untouched
exactly when no project with the given id exists.  When the project exists
but no stage key matches, the source does not return null: it flips
nothing, still re-evaluates the completion rule and writes back, and
returns the project.  When a stage matches, exactly the first matching
stage has its done flag flipped. -/
theorem toggleStage_contract (st : Store) (pid key : String) :
    (st.projects.find? (fun x => x.id = pid) = none → toggleStage st pid key = (st, none)) ∧
    (∀ p, st.projects.find? (fun x => x.id = pid) = some p →
      (toggleStage st pid key).2 = some (toggleProj key p) ∧
      (toggleStage st pid key).1.projects =
        updateFirst st.projects (fun x => x.id = pid) (toggleProj key) ∧
      (p.stages.find? (fun s => s.key = key) = none → toggleStageInList p.stages key = p.stages)) ∧
    (∀ l1 l2 s, (∀ x ∈ l1, x.key ≠ key) → s.key = key →
      toggleStageInList (l1 ++ s :: l2) key = l1 ++ flipStage s :: l2) := by
  refine ⟨?_, ?_, ?_⟩
  · intro h; simp [toggleStage, h]
  · intro p hp
    refine ⟨by simp [toggleStage, hp], by simp [toggleStage, hp], ?_⟩
    intro hnone
    exact updateFirst_of_find?_none hnone
  · intro l1 l2 s h1 hs2
    unfold toggleStageInList
    exact updateFirst_append_cons l1 s l2 _ _ (fun x hx => by simp [h1 x hx]) (by simp [hs2])

def c2cexStore : Store := (addProject initStore "c" {} "p1" "t").1

def c2cexProj : Project :=
  { id := "p1", customerId := "c", createdAt := "t", location := "—", plot := 0, budget := 0,
    materials := "Standard", timeline := 12, status := "pending", verified := false,
    assignedContractor := none, referrerId := none, commissionPercent := 6,
    stages := freshStages }

/-- C2 counterexample: on a store holding the project p1 that has no stage
keyed bogus, toggleStage does not return null; it returns the project. -/
theorem toggleStage_missing_stage_cex :
    c2cexStore.projects.find? (fun x => x.id = "p1") = some c2cexProj ∧
    c2cexProj.stages.find? (fun s => s.key = "bogus") = none ∧
    (toggleStage c2cexStore "p1" "bogus").2 = some c2cexProj ∧
    (toggleStage c2cexStore "p1" "bogus").2 ≠ none := by decide

/-- C2 witness: the amended contract applied to a concrete store, project
and existing stage key. -/
theorem toggleStage_contract_witness :
    (toggleStage c2cexStore "p1" "roof").2 = some (toggleProj "roof" c2cexProj) :=
  ((toggleStage_contract c2cexStore "p1" "roof").2.1 c2cexProj (by decide)).1

/-- C3: registerUser returns the validation error when email or name is
missing, the conflict error when some stored user has the same email up
to case, leaving the users collection unchanged in both error cases, and
otherwise appends exactly one new user and returns it. -/
theorem registerUser_contract (st : Store) (email name role id ts : String) :
    ((email = "" ∨ name = "") →
      registerUser st email name role id ts = (st, Except.error "Name and email required")) ∧
    (¬ (email = "" ∨ name = "") →
      st.users.any (fun u => jsLower u.email = jsLower email) = true →
      registerUser st email name role id ts = (st, Except.error "Email already registered")) ∧
    (¬ (email = "" ∨ name = "") →
      st.users.any (fun u => jsLower u.email = jsLower email) = false →
      registerUser st email name role id ts =
        ({ st with users := st.users ++
            [{ id := id, email := jsLower email, name := name, role := role, createdAt := ts }] },
          Except.ok { id := id, email := jsLower email, name := name, role := role, createdAt := ts })) := by
  refine ⟨?_, ?_, ?_⟩
  · intro h; unfold registerUser; rw [if_pos h]
  · intro h1 h2; unfold registerUser; rw [if_neg h1, if_pos h2]
  · intro h1 h2; unfold registerUser; rw [if_neg h1, if_neg (by simp [h2])]

/-- C3 witness: a successful registration on the fresh store appends one
user. -/
theorem registerUser_contract_witness :
    (registerUser initStore "a@x.com" "A" "referrer" "u1" "t1").1.users.length = 1 := by
  have h := (registerUser_contract initStore "a@x.com" "A" "referrer" "u1" "t1").2.2
    (by decide) (by decide)
  rw [h]
  simp [initStore]

/-- C4: whenever registerUser succeeds, logging in with the same email
(in the very spelling that was registered) succeeds and leaves the
session holding exactly the returned user, in particular a user with the
same id. -/
theorem register_then_login (st : Store) (email name role id ts : String) (u : User)
    (h : (registerUser st email name role id ts).2 = Except.ok u) :
    (loginUser (registerUser st email name role id ts).1 email).2 = Except.ok u ∧
    (loginUser (registerUser st email name role id ts).1 email).1.session = some u := by
  by_cases h1 : email = "" ∨ name = ""
  · exfalso
    unfold registerUser at h
    rw [if_pos h1] at h
    simp at h
  by_cases h2 : st.users.any (fun x => jsLower x.email = jsLower email) = true
  · exfalso
    unfold registerUser at h
    rw [if_neg h1, if_pos h2] at h
    simp at h
  have h2' : st.users.any (fun x => jsLower x.email = jsLower email) = false :=
    Bool.eq_false_iff.mpr h2
  have hu : ({ id := id, email := jsLower email, name := name, role := role, createdAt := ts } : User) = u := by
    unfold registerUser at h
    rw [if_neg h1, if_neg h2] at h
    simpa using h
  have hst1 : (registerUser st email name role id ts).1 =
      { st with users := st.users ++
        [{ id := id, email := jsLower email, name := name, role := role, createdAt := ts }] } := by
    unfold registerUser
    rw [if_neg h1, if_neg h2]
  have hnone : st.users.find? (fun x => jsLower x.email = jsLower email) = none :=
    List.find?_eq_none.mpr (List.any_eq_false.mp h2')
  have hfind : ((registerUser st email name role id ts).1.users).find?
      (fun x => jsLower x.email = jsLower email) = some u := by
    rw [hst1]
    show (st.users ++
      [({ id := id, email := jsLower email, name := name, role := role, createdAt := ts } : User)]).find?
        (fun x => jsLower x.email = jsLower email) = some u
    rw [List.find?_append, hnone]
    simp only [Option.none_or]
    rw [List.find?_cons]
    simp [jsLower_idem, hu]
  constructor
  · unfold loginUser
    rw [hfind]
  · unfold loginUser
    rw [hfind]

def c4user : User :=
  { id := "u1", email := "a@x.com", name := "Alice", role := "referrer", createdAt := "t1" }

/-- C4 witness: a concrete register-then-login run on the fresh store,
with a case-varying email spelling. -/
theorem register_then_login_witness :
    (loginUser (registerUser initStore "A@X.com" "Alice" "referrer" "u1" "t1").1 "A@X.com").1.session =
      some c4user :=
  (register_then_login initStore "A@X.com" "Alice" "referrer" "u1" "t1" c4user (by decide)).2

/-- C5: toggling the same stage key of the same existing project twice
restores the done flag of that stage to its original value (the derived
status recomputation is deliberately not part of the equality). -/
theorem toggleStage_involutive (st : Store) (pid key : String) (p : Project) (stg : Stage)
    (hp : st.projects.find? (fun x => x.id = pid) = some p)
    (hs : p.stages.find? (fun s => s.key = key) = some stg) :
    ∃ q : Project,
      (toggleStage (toggleStage st pid key).1 pid key).1.projects.find?
        (fun x => x.id = pid) = some q ∧
      q.stages.find? (fun s => s.key = key) = some stg := by
  have hid : p.id = pid := by simpa using List.find?_some hp
  have hfp : (fun x : Project => decide (x.id = pid)) (toggleProj key p) = true := by
    simp only [decide_eq_true_eq, toggleProj_id]
    exact hid
  have hfind1 : (toggleStage st pid key).1.projects.find? (fun x => x.id = pid) =
      some (toggleProj key p) := by
    rw [toggleStage_found key hp]
    exact find?_updateFirst hp hfp
  have hfp2 : (fun x : Project => decide (x.id = pid))
      (toggleProj key (toggleProj key p)) = true := by
    simp only [decide_eq_true_eq, toggleProj_id]
    exact hid
  refine ⟨toggleProj key (toggleProj key p),
    by rw [toggleStage_found key hfind1]; exact find?_updateFirst hfind1 hfp2, ?_⟩
  have hstg : (toggleProj key (toggleProj key p)).stages =
      toggleStageInList (toggleStageInList p.stages key) key := by
    rw [toggleProj_stages, toggleProj_stages]
  rw [hstg]
  have hkey : stg.key = key := by simpa using List.find?_some hs
  have hk1 : (fun s : Stage => decide (s.key = key)) (flipStage stg) = true := by
    simp [flipStage_key, hkey]
  have h1 : (toggleStageInList p.stages key).find? (fun s => s.key = key) =
      some (flipStage stg) := by
    unfold toggleStageInList
    exact find?_updateFirst hs hk1
  have hk2 : (fun s : Stage => decide (s.key = key)) (flipStage (flipStage stg)) = true := by
    simp [flipStage_key, hkey]
  have h2 : (toggleStageInList (toggleStageInList p.stages key) key).find? (fun s => s.key = key) =
      some (flipStage (flipStage stg)) := by
    unfold toggleStageInList
    exact find?_updateFirst h1 hk2
  rw [flipStage_flipStage] at h2
  exact h2

def c5store : Store := (addProject initStore "c5" {} "p5" "t").1

def c5proj : Project :=
  { id := "p5", customerId := "c5", createdAt := "t", location := "—", plot := 0, budget := 0,
    materials := "Standard", timeline := 12, status := "pending", verified := false,
    assignedContractor := none, referrerId := none, commissionPercent := 6,
    stages := freshStages }

/-- C5 witness: the double-toggle theorem applied to a concrete store,
project and stage. -/
theorem toggleStage_involutive_witness :
    ∃ q : Project,
      (toggleStage (toggleStage c5store "p5" "roof").1 "p5" "roof").1.projects.find?
        (fun x => x.id = "p5") = some q ∧
      q.stages.find? (fun s => s.key = "roof") =
        some { key := "roof", label := "Roof", done := false } :=
  toggleStage_involutive c5store "p5" "roof" c5proj
    { key := "roof", label := "Roof", done := false } (by decide) (by decide)

/-- C6, amended: convertLeadToProject returns the not-found error when no
lead with the given id exists; otherwise it resolves or creates the
customer user from the lead email, creates a project for that customer,
marks the lead converted with the new project id, writes both
collections, and returns the new project.  The new project carries the
lead referrerId through the JavaScript falsy coercion: a missing or
empty referrerId becomes null, so the claimed plain equality fails
exactly when the lead referrerId is the empty string. -/
theorem convertLead_contract (st : Store) (leadId customerName : String) (budget : Option Int)
    (uidNew pidNew ts : String) :
    (st.leads.find? (fun l => l.id = leadId) = none →
      convertLeadToProject st leadId customerName budget uidNew pidNew ts =
        (st, Except.error "Lead not found")) ∧
    (∀ lead, st.leads.find? (fun l => l.id = leadId) = some lead →
      ∃ proj : Project,
        (convertLeadToProject st leadId customerName budget uidNew pidNew ts).2 =
          Except.ok proj ∧
        proj.customerId =
          (registerOrGetUserByEmail st lead.email customerName "customer" uidNew ts).2.id ∧
        proj.referrerId = jsOrNull lead.referrerId ∧
        (convertLeadToProject st leadId customerName budget uidNew pidNew ts).1.projects =
          proj :: st.projects ∧
        (convertLeadToProject st leadId customerName budget uidNew pidNew ts).1.leads =
          updateFirst st.leads (fun l => l.id = leadId) (markConverted proj.id) ∧
        (convertLeadToProject st leadId customerName budget uidNew pidNew ts).1.users =
          (registerOrGetUserByEmail st lead.email customerName "customer" uidNew ts).1.users) := by
  constructor
  · intro h
    simp [convertLeadToProject, h]
  · intro lead h
    refine ⟨(addProject (registerOrGetUserByEmail st lead.email customerName "customer" uidNew ts).1
      (registerOrGetUserByEmail st lead.email customerName "customer" uidNew ts).2.id
      { location := some "(from lead)", budget := budget, materials := some "TBD",
        timeline := some 12, referrerId := lead.referrerId } pidNew ts).2,
      ?_, ?_, ?_, ?_, ?_, ?_⟩
    · simp [convertLeadToProject, h]
    · simp [addProject]
    · simp [addProject]
    · simp [convertLeadToProject, h, addProject, registerOrGet_projects]
    · simp [convertLeadToProject, h, addProject, registerOrGet_leads]
    · simp [convertLeadToProject, h, addProject]

def c6cexStore : Store := (addLead initStore (some "") "lead@x.com" "n" "l1" "t").1

def c6cexLead : Lead :=
  { id := "l1", referrerId := some "", email := "lead@x.com", notes := "n",
    status := "new", createdAt := "t", convertedProjectId := none }

def c6cexProj : Project :=
  { id := "p1", customerId := "u1", createdAt := "t2", location := "(from lead)", plot := 0,
    budget := 5000, materials := "TBD", timeline := 12, status := "pending", verified := false,
    assignedContractor := none, referrerId := none, commissionPercent := 6,
    stages := freshStages }

/-- C6 counterexample: a lead whose referrerId is the empty string yields
a project whose referrerId is null, so the claimed equality between the
two fields fails. -/
theorem convertLead_empty_referrer_cex :
    c6cexStore.leads.find? (fun l => l.id = "l1") = some c6cexLead ∧
    (convertLeadToProject c6cexStore "l1" "Cust" (some 5000) "u1" "p1" "t2").2 =
      Except.ok c6cexProj ∧
    c6cexProj.referrerId ≠ c6cexLead.referrerId := by decide

def c6wStore : Store := (addLead initStore (some "r1") "w@x.com" "n" "l9" "t").1

def c6wLead : Lead :=
  { id := "l9", referrerId := some "r1", email := "w@x.com", notes := "n",
    status := "new", createdAt := "t", convertedProjectId := none }

/-- C6 witness: the amended conversion contract applied to a concrete
store holding one fresh lead with a nonempty referrer. -/
theorem convertLead_contract_witness :
    ∃ proj : Project,
      (convertLeadToProject c6wStore "l9" "W" (some 100) "u9" "p9" "t9").2 = Except.ok proj ∧
      proj.customerId =
        (registerOrGetUserByEmail c6wStore c6wLead.email "W" "customer" "u9" "t9").2.id ∧
      proj.referrerId = jsOrNull c6wLead.referrerId ∧
      (convertLeadToProject c6wStore "l9" "W" (some 100) "u9" "p9" "t9").1.projects =
        proj :: c6wStore.projects ∧
      (convertLeadToProject c6wStore "l9" "W" (some 100) "u9" "p9" "t9").1.leads =
        updateFirst c6wStore.leads (fun l => l.id = "l9") (markConverted proj.id) ∧
      (convertLeadToProject c6wStore "l9" "W" (some 100) "u9" "p9" "t9").1.users =
        (registerOrGetUserByEmail c6wStore c6wLead.email "W" "customer" "u9" "t9").1.users :=
  (convertLead_contract c6wStore "l9" "W" (some 100) "u9" "p9" "t9").2 c6wLead (by decide)

/-- C7, amended: calling convertLeadToProject on an already converted
lead is not rejected by the source: it succeeds again, creates another
project, and overwrites the convertedProjectId of the lead with the id
of the new project (the status stays converted). -/
theorem convertLead_reconvert (st : Store) (leadId customerName : String) (budget : Option Int)
    (uidNew pidNew ts : String) (lead : Lead)
    (hl : st.leads.find? (fun l => l.id = leadId) = some lead)
    (hconv : lead.status = "converted") :
    ∃ proj : Project,
      (convertLeadToProject st leadId customerName budget uidNew pidNew ts).2 =
        Except.ok proj ∧
      (convertLeadToProject st leadId customerName budget uidNew pidNew ts).1.projects.length =
        st.projects.length + 1 ∧
      (convertLeadToProject st leadId customerName budget uidNew pidNew ts).1.leads =
        updateFirst st.leads (fun l => l.id = leadId) (markConverted proj.id) := by
  refine ⟨(addProject (registerOrGetUserByEmail st lead.email customerName "customer" uidNew ts).1
    (registerOrGetUserByEmail st lead.email customerName "customer" uidNew ts).2.id
    { location := some "(from lead)", budget := budget, materials := some "TBD",
      timeline := some 12, referrerId := lead.referrerId } pidNew ts).2, ?_, ?_, ?_⟩
  · simp [convertLeadToProject, hl]
  · simp [convertLeadToProject, hl, addProject, registerOrGet_projects]
  · simp [convertLeadToProject, hl, addProject, registerOrGet_leads]

def c7store : Store :=
  (convertLeadToProject (addLead initStore (some "r") "a@b.c" "n" "l1" "t").1
    "l1" "CustOne" (some 1000) "u1" "p1" "t2").1

def c7lead : Lead :=
  { id := "l1", referrerId := some "r", email := "a@b.c", notes := "n",
    status := "converted", createdAt := "t", convertedProjectId := some "p1" }

def c7proj2 : Project :=
  { id := "p2", customerId := "u1", createdAt := "t3", location := "(from lead)", plot := 0,
    budget := 2000, materials := "TBD", timeline := 12, status := "pending", verified := false,
    assignedContractor := none, referrerId := some "r", commissionPercent := 6,
    stages := freshStages }

/-- C7 counterexample: reconverting the already converted lead l1 is not
rejected: it returns ok with a second project and overwrites the
convertedProjectId of the lead from p1 to p2. -/
theorem convertLead_already_converted_cex :
    c7store.leads.find? (fun l => l.id = "l1") = some c7lead ∧
    c7lead.status = "converted" ∧
    (convertLeadToProject c7store "l1" "CustTwo" (some 2000) "u2" "p2" "t3").2 =
      Except.ok c7proj2 ∧
    (convertLeadToProject c7store "l1" "CustTwo" (some 2000) "u2" "p2" "t3").1.projects.length = 2 ∧
    (convertLeadToProject c7store "l1" "CustTwo" (some 2000) "u2" "p2" "t3").1.leads =
      [{ c7lead with convertedProjectId := some "p2" }] := by decide

/-- C7 witness: the amended reconversion theorem applied to the concrete
already-converted store. -/
theorem convertLead_reconvert_witness :
    ∃ proj : Project,
      (convertLeadToProject c7store "l1" "CustTwo" (some 2000) "u2" "p2" "t3").2 =
        Except.ok proj ∧
      (convertLeadToProject c7store "l1" "CustTwo" (some 2000) "u2" "p2" "t3").1.projects.length =
        c7store.projects.length + 1 ∧
      (convertLeadToProject c7store "l1" "CustTwo" (some 2000) "u2" "p2" "t3").1.leads =
        updateFirst c7store.leads (fun l => l.id = "l1") (markConverted proj.id) :=
  convertLead_reconvert c7store "l1" "CustTwo" (some 2000) "u2" "p2" "t3" c7lead
    (by decide) (by decide)

/-- C8: a project created without commissionPercent takes the
defaultCommission stored at call time; writeDefaults changes no existing
project (and addProject itself only prepends, leaving the existing
projects untouched), while projects created after a writeDefaults pick
up the new value. -/
theorem addProject_commission_defaults (st : Store) (cid : String) (payload : Payload)
    (id ts : String) (obj : Defaults) :
    (payload.commissionPercent = none →
      (addProject st cid payload id ts).2.commissionPercent = st.defaults.defaultCommission) ∧
    (writeDefaults st obj).projects = st.projects ∧
    (payload.commissionPercent = none →
      (addProject (writeDefaults st obj) cid payload id ts).2.commissionPercent =
        obj.defaultCommission) ∧
    (addProject st cid payload id ts).1.projects =
      (addProject st cid payload id ts).2 :: st.projects := by
  refine ⟨?_, rfl, ?_, rfl⟩
  · intro h
    simp [addProject, h]
  · intro h
    simp [addProject, writeDefaults, h]

/-- C8 witness: on the fresh store the default commission 6 is used; after
writing defaultCommission 9, a newly created project gets 9. -/
theorem addProject_commission_defaults_witness :
    (addProject initStore "c" {} "p1" "t").2.commissionPercent = 6 ∧
    (addProject (writeDefaults initStore { defaultCommission := 9 }) "c" {} "p2" "t").2.commissionPercent = 9 :=
  ⟨(addProject_commission_defaults initStore "c" {} "p1" "t" { defaultCommission := 9 }).1 rfl,
   (addProject_commission_defaults initStore "c" {} "p2" "t" { defaultCommission := 9 }).2.2.1 rfl⟩

/-- C9: the read helper is total and silently falls back — when the
stored text is absent, empty, or fails to deserialize, it returns the
caller-supplied fallback instead of raising; the hypothesis that
deserializing a just-serialized value gives it back is the contract of
the JSON round-trip the source relies on. -/
theorem read_total_fallback {V : Type} (stored : Option String) (parse : String → Option V)
    (stringify : V → String) (fallback : V)
    (hround : ∀ v, parse (stringify v) = some v)
    (hfail : stored = none ∨ stored = some "" ∨ ∃ s, stored = some s ∧ parse s = none) :
    read stored parse stringify fallback = fallback := by
  rcases hfail with h | h | ⟨s, hs, hp⟩
  · subst h
    unfold read jsOrStr
    rw [hround]
  · subst h
    unfold read jsOrStr
    simp [hround]
  · subst hs
    unfold read jsOrStr
    by_cases hse : s = ""
    · simp [hse, hround]
    · simp [hse, hp]

/-- C9 witness: a corrupt stored text that no serialized value produces
is replaced by the fallback. -/
theorem read_total_fallback_witness :
    read (some "corrupt") (fun s => if s = "T" then some true else if s = "F" then some false else none)
      (fun b => if b then "T" else "F") true = true :=
  read_total_fallback (some "corrupt")
    (fun s => if s = "T" then some true else if s = "F" then some false else none)
    (fun b => if b then "T" else "F") true
    (fun v => by cases v <;> simp)
    (Or.inr (Or.inr ⟨"corrupt", rfl, by simp⟩))

/-- C10: in addProject a provided-but-falsy field is treated as missing
for location, plot, budget, materials and timeline (timeline 0 becomes
12, location and materials empty strings become their defaults), while
commissionPercent uses null-coalescing: an explicit 0 is preserved and
only a missing value falls back to the stored defaultCommission. -/
theorem addProject_falsy_defaults (st : Store) (cid : String) (payload : Payload)
    (id ts : String) :
    (payload.timeline = some 0 → (addProject st cid payload id ts).2.timeline = 12) ∧
    (payload.location = some "" → (addProject st cid payload id ts).2.location = "—") ∧
    (payload.materials = some "" → (addProject st cid payload id ts).2.materials = "Standard") ∧
    (payload.plot = some 0 → (addProject st cid payload id ts).2.plot = 0) ∧
    (payload.budget = some 0 → (addProject st cid payload id ts).2.budget = 0) ∧
    (payload.commissionPercent = some 0 →
      (addProject st cid payload id ts).2.commissionPercent = 0) ∧
    (payload.commissionPercent = none →
      (addProject st cid payload id ts).2.commissionPercent = st.defaults.defaultCommission) := by
  refine ⟨?_, ?_, ?_, ?_, ?_, ?_, ?_⟩ <;>
    intro h <;> simp [addProject, jsOrInt, jsOrStr, h]

def c10payload : Payload :=
  { location := some "", plot := some 0, budget := some 0, materials := some "",
    timeline := some 0, commissionPercent := some 0 }

/-- C10 witness: a payload with every field explicitly falsy yields the
field defaults except commissionPercent, which keeps the explicit 0. -/
theorem addProject_falsy_defaults_witness :
    (addProject initStore "c" c10payload "p1" "t").2.timeline = 12 ∧
    (addProject initStore "c" c10payload "p1" "t").2.location = "—" ∧
    (addProject initStore "c" c10payload "p1" "t").2.commissionPercent = 0 :=
  ⟨(addProject_falsy_defaults initStore "c" c10payload "p1" "t").1 rfl,
   (addProject_falsy_defaults initStore "c" c10payload "p1" "t").2.1 rfl,
   (addProject_falsy_defaults initStore "c" c10payload "p1" "t").2.2.2.2.2.1 rfl⟩

end CRC
